import Mathlib

/-!
Shallow embedding of the assisted-installer node installer
(`src/installer/installer.go`, packages `installer` and `utils`).

Stateful Go code is embedded as explicit state passing: the polling loops
(`WaitForPredicate`-style waits) become fuel-indexed recursions over a
sequence of observations of the external world (the inventory service and
the cluster API), and side effects (progress updates to the inventory,
control-plane-replicas patch calls) are collected into explicit lists of
events.  Go errors are `Option String` (`none` = nil error) or
`Except String`.
-/

deriving instance DecidableEq for Except

namespace AssistedInstaller

/-- `models.HostStage` (the enumerated lifecycle tag reported to the
inventory service). -/
inductive HostStage where
  | startingInstallation
  | installing
  | writingImageToDisk
  | waitingForControlPlane
  | waitingForBootkube
  | waitingForController
  | waitingForIgnition
  | configuring
  | joined
  | rebooting
  | done
  | failed
  deriving DecidableEq, Repr

/-- `models.OperatorStatus` (the three values used by the code:
`available`, `failed`, `progressing`). -/
inductive OperatorStatus where
  | available
  | failed
  | progressing
  deriving DecidableEq, Repr

/-- `configv1.ClusterOperatorStatusCondition`: a cluster-operator status
condition with its type (`Available` / `Progressing` / `Degraded` / ...),
status (`True` / `False` / `Unknown`) and message. -/
structure ClusterOperatorStatusCondition where
  type : String
  status : String
  message : String
  deriving DecidableEq, Repr

/-- `utils.CsvStatusToOperatorStatus`: maps an OLM CSV phase string to an
operator status.  `Succeeded ↦ available`, `Failed ↦ failed`, anything
else `↦ progressing`. -/
def CsvStatusToOperatorStatus (csvStatus : String) : OperatorStatus :=
  if csvStatus = "Succeeded" then OperatorStatus.available
  else if csvStatus = "Failed" then OperatorStatus.failed
  else OperatorStatus.progressing

/-- `utils.ClusterOperatorConditionsToMonitoredOperatorStatus`: scans the
condition list in order; on each condition it first checks
`Available=True`, then `Progressing=True`, then `Degraded=True`, returning
at the first hit; if no condition hits it returns `progressing` with an
empty message. -/
def ClusterOperatorConditionsToMonitoredOperatorStatus :
    List ClusterOperatorStatusCondition → OperatorStatus × String
  | [] => (OperatorStatus.progressing, "")
  | condition :: rest =>
    if condition.type = "Available" ∧ condition.status = "True" then
      (OperatorStatus.available, condition.message)
    else if condition.type = "Progressing" ∧ condition.status = "True" then
      (OperatorStatus.progressing, condition.message)
    else if condition.type = "Degraded" ∧ condition.status = "True" then
      (OperatorStatus.failed, condition.message)
    else
      ClusterOperatorConditionsToMonitoredOperatorStatus rest

/-- A condition "triggers" the scan in
`ClusterOperatorConditionsToMonitoredOperatorStatus` when its type is one
of `Available`/`Progressing`/`Degraded` and its status is `True`. -/
def isTriggerCondition (c : ClusterOperatorStatusCondition) : Bool :=
  (c.type = "Available" ∨ c.type = "Progressing" ∨ c.type = "Degraded") ∧
    c.status = "True"

/-- One call to `inventory_client.UpdateHostInstallProgress`, as recorded
event: the infra-env id, host id, new stage and info string sent. -/
structure ProgressUpdate where
  infraEnvID : String
  hostID : String
  stage : HostStage
  info : String
  deriving DecidableEq, Repr

/-- `installer.UpdateHostInstallProgress`: sends one progress update to
the inventory client when the configured host id is non-empty, and makes
no inventory call at all when it is empty (the update error, if any, is
only logged).  The result is the list of inventory calls made. -/
def UpdateHostInstallProgress (infraEnvID hostID : String)
    (newStage : HostStage) (info : String) : List ProgressUpdate :=
  if hostID ≠ "" then [⟨infraEnvID, hostID, newStage, info⟩] else []

/-- Maximum number of calls to `f` that `utils.Retry` can make for a given
`attempts` parameter: the Go loop `for i := 0; i < attempts-1; i++` makes
`max (attempts-1) 0` calls and one further final call is always made. -/
def retryMaxCalls (attempts : Int) : Nat := (attempts - 1).toNat + 1

/-- The wrapped error message `utils.Retry` builds after the final failed
attempt: `fmt.Errorf("failed after %d attempts, last error: %s", ...)`. -/
def retryWrapMsg (attempts : Int) (e : String) : String :=
  "failed after " ++ toString attempts ++ " attempts, last error: " ++ e

/-- Loop body of `utils.Retry`: `n` remaining non-final loop iterations,
calling `f` at successive call indices starting at `i`; returns the last
(unwrapped) error, the next unused call index (so `.2.1` is the total
number of calls when started at 0), and the list of sleep durations
performed.  The Go loop sleeps `sleep` after every failed non-final
attempt and not after the final one. -/
def retryAux (sleep : Nat) (f : Nat → Option String) :
    Nat → Nat → Option String × Nat × List Nat
  | 0, i =>
    match f i with
    | none => (none, i + 1, [])
    | some e => (some e, i + 1, [])
  | n + 1, i =>
    match f i with
    | none => (none, i + 1, [])
    | some _ =>
      let r := retryAux sleep f n (i + 1)
      (r.1, r.2.1, sleep :: r.2.2)

/-- `utils.Retry(attempts, sleep, log, f)`: runs `f` up to
`retryMaxCalls attempts` times (`attempts - 1` loop iterations with a
sleep between failed attempts, plus one final attempt), returning `nil`
at the first success and otherwise a wrapped error mentioning `attempts`
and the last error.  `f` is modelled as a function from call index to its
returned error; the result carries the final error, the number of calls
made, and the sleeps performed. -/
def Retry (attempts : Int) (sleep : Nat) (f : Nat → Option String) :
    Option String × Nat × List Nat :=
  let r := retryAux sleep f ((attempts - 1).toNat) 0
  (r.1.map (retryWrapMsg attempts), r.2.1, r.2.2)

/-- `installer.writeImageToDisk`: reports stage `writing-image-to-disk`
and retries the image-write operation via `utils.Retry` with 3 attempts
and a 1-second interval.  Only the retry behaviour is modelled; `f` is
the `ops.WriteImageToDisk` call indexed by attempt. -/
def writeImageToDisk (f : Nat → Option String) :
    Option String × Nat × List Nat :=
  Retry 3 1 f

/-- Tail of `installer.RunInstaller` (after client construction and
best-effort disk formatting): run `InstallNode`; when it returns an error,
report stage `failed` with the error message through
`UpdateHostInstallProgress` and return the error; otherwise return nil.
Result: the progress calls made by this tail and the returned error. -/
def RunInstallerTail (infraEnvID hostID : String)
    (installNodeResult : Option String) : List ProgressUpdate × Option String :=
  match installNodeResult with
  | some e =>
    (UpdateHostInstallProgress infraEnvID hostID HostStage.failed e, some e)
  | none => ([], none)

/-! ## Worker wait for 2 ready masters (`workerWaitFor2ReadyMasters`) -/

/-- `models.HostProgress`: only the current stage is used by the code. -/
structure HostProgress where
  currentStage : HostStage
  deriving DecidableEq, Repr

/-- `models.Host` as consumed by `numDone`. -/
structure Host where
  progress : HostProgress
  deriving DecidableEq, Repr

/-- `models.Cluster`: only the kind pointer is consumed
(`swag.StringValue(cluster.Kind)`). -/
structure Cluster where
  kind : Option String
  deriving DecidableEq, Repr

/-- `swag.StringValue`: dereference a `*string`, `nil ↦ ""`. -/
def stringValue : Option String → String
  | none => ""
  | some s => s

/-- `models.ClusterKindAddHostsCluster`. -/
def ClusterKindAddHostsCluster : String := "AddHostsCluster"

/-- `installer.minMasterNodes` constant. -/
def minMasterNodes : Nat := 2

/-- `installer.numDone`: the number of hosts whose current stage is
`done`. -/
def numDone : List Host → Nat
  | [] => 0
  | h :: rest =>
    (if h.progress.currentStage = HostStage.done then 1 else 0) + numDone rest

/-- One tick's observation of the external world inside
`workerWaitFor2ReadyMasters`: the result of `GetCluster` (`none` = call
error) and of `ListsHostsForRole("master")` (`none` = call error). -/
structure WorkerObs where
  getCluster : Option Cluster
  listMastersHosts : Option (List Host)
  deriving Repr

/-- The `if cluster == nil` caching at the top of the worker-wait
predicate: keep the cached cluster when present, otherwise take this
tick's `GetCluster` result. -/
def getClusterCached (cached fetched : Option Cluster) : Option Cluster :=
  match cached with
  | some c => some c
  | none => fetched

/-- `installer.workerWaitFor2ReadyMasters`: the
`utils.WaitForPredicate(waitForeverTimeout, ...)` loop, fuel-indexed over
a sequence of observations.  Each tick: fetch the cluster once and cache
it; succeed immediately when its kind is add-hosts; otherwise list the
master-role hosts from the inventory and succeed when at least
`minMasterNodes` of them are at stage `done`.  Returns the tick at which
the predicate first held together with the cached cluster, or `none`
when the fuel (the effectively-infinite timeout) runs out. -/
def workerWaitFor2ReadyMasters (obs : Nat → WorkerObs) :
    Nat → Nat → Option Cluster → Option (Nat × Cluster)
  | 0, _, _ => none
  | fuel + 1, step, cached =>
    match getClusterCached cached (obs step).getCluster with
    | none => workerWaitFor2ReadyMasters obs fuel (step + 1) none
    | some c =>
      if stringValue c.kind = ClusterKindAddHostsCluster then some (step, c)
      else
        match (obs step).listMastersHosts with
        | none => workerWaitFor2ReadyMasters obs fuel (step + 1) (some c)
        | some hosts =>
          if minMasterNodes ≤ numDone hosts then some (step, c)
          else workerWaitFor2ReadyMasters obs fuel (step + 1) (some c)

/-! ## Control-plane replicas patch (`shouldControlPlaneReplicasPatchApplied`,
`waitForMinMasterNodes`) -/

/-- `installer.ovnKubernetes` constant. -/
def ovnKubernetes : String := "OVNKubernetes"

/-- `installer.numMasterNodes` constant. -/
def numMasterNodes : Int := 3

/-- `go-version` ordering on parsed numeric versions (lists of numeric
segments, missing segments read as 0), as used by
`utils.IsVersionLessThan47` to compare the cluster version with `4.7`. -/
def segmentsLt : List Nat → List Nat → Bool
  | [], [] => false
  | [], b :: bs => decide (0 < b) || segmentsLt [] bs
  | _ :: _, [] => false
  | a :: as, b :: bs => decide (a < b) || (decide (a = b) && segmentsLt as bs)

/-- `utils.IsVersionLessThan47` on an already-parsed version (the
`version.NewVersion` parse failure path is carried separately as
`Option`): the version is less than `4.7`. -/
def IsVersionLessThan47 (v : List Nat) : Bool := segmentsLt v [4, 7]

/-- The deterministic view of the k8s client used by
`shouldControlPlaneReplicasPatchApplied` / `waitForMinMasterNodes`:
the stable result of `GetNetworkType` (`none` = the call fails on every
poll of `waitForNetworkType`, so that wait never returns), the result of
`GetControlPlaneReplicas` (`none` = error), and the errors, if any, of
`PatchControlPlaneReplicas` and `UnPatchControlPlaneReplicas`. -/
structure K8sView where
  networkType : Option String
  controlPlaneReplicas : Option Int
  patchErr : Option String
  unpatchErr : Option String
  deriving Repr

/-- `installer.shouldControlPlaneReplicasPatchApplied`: the patch is
required exactly when the OpenShift version is < 4.7, the network type is
`OVNKubernetes` and the current control-plane replica count equals
`numMasterNodes` (3).  `version = none` models a version string
`version.NewVersion` cannot parse (the function then returns the parse
error).  The outer `Option` is `none` when `waitForNetworkType` never
observes a successful `GetNetworkType` and the function never returns. -/
def shouldControlPlaneReplicasPatchApplied (version : Option (List Nat))
    (kc : K8sView) : Option (Except String Bool) :=
  match version with
  | none => some (Except.error "failed to compare OCP version")
  | some v =>
    if ¬ IsVersionLessThan47 v then some (Except.ok false)
    else
      match kc.networkType with
      | none => none
      | some nt =>
        if nt ≠ ovnKubernetes then some (Except.ok false)
        else
          match kc.controlPlaneReplicas with
          | none => some (Except.error "failed to get control plane replicas")
          | some r =>
            if r ≠ numMasterNodes then some (Except.ok false)
            else some (Except.ok true)

/-- A call to `PatchControlPlaneReplicas` (sets the control-plane replica
count to 2) or `UnPatchControlPlaneReplicas` (restores it to 3). -/
inductive ReplicasAction where
  | patch
  | unpatch
  deriving DecidableEq, Repr

/-- Effect of a replicas action on the control-plane replica count. -/
def applyReplicasAction : Int → ReplicasAction → Int
  | _, ReplicasAction.patch => 2
  | _, ReplicasAction.unpatch => 3

/-- `installer.waitForMinMasterNodes`: decide whether the replicas patch
applies; when it does, call `PatchControlPlaneReplicas`, run
`waitForMasterNodes(minMasterNodes)`, then call
`UnPatchControlPlaneReplicas`; errors abort.  `masterWaitReturns` records
whether the (void, unbounded) inner master wait ever returns.  Result:
the function's return value (`none` = it never returns) and the list of
patch/un-patch calls performed, in order, including those made before a
divergence or an error. -/
def waitForMinMasterNodes (version : Option (List Nat)) (kc : K8sView)
    (masterWaitReturns : Bool) :
    Option (Except String Unit) × List ReplicasAction :=
  match shouldControlPlaneReplicasPatchApplied version kc with
  | none => (none, [])
  | some (Except.error e) => (some (Except.error e), [])
  | some (Except.ok true) =>
    match kc.patchErr with
    | some e => (some (Except.error e), [ReplicasAction.patch])
    | none =>
      if masterWaitReturns then
        match kc.unpatchErr with
        | some e =>
          (some (Except.error e), [ReplicasAction.patch, ReplicasAction.unpatch])
        | none =>
          (some (Except.ok ()), [ReplicasAction.patch, ReplicasAction.unpatch])
      else (none, [ReplicasAction.patch])
  | some (Except.ok false) =>
    if masterWaitReturns then (some (Except.ok ()), []) else (none, [])

/-- From `installer.InstallNode` (lines 111 and 150): the bootstrap
branch — the only branch that reaches `waitForControlPlane` and hence
`waitForMinMasterNodes` — is taken exactly when the configured role is
`bootstrap` and the high-availability mode is not `"None"`
(`models.ClusterHighAvailabilityModeNone`). -/
def installNodeEntersControlPlaneWait (role haMode : String) : Bool :=
  role = "bootstrap" ∧ haMode ≠ "None"

/-! ## Single-node ignition merge (`updateSingleNodeIgnition`) -/

/-- A file entry of an ignition config (`Storage.Files`): path and
contents. -/
structure IgnitionFile where
  path : String
  contents : String
  deriving DecidableEq, Repr

/-- The nested `Ignition.Config` section of an ignition config: the
`merge` resource list and the optional `replace` resource. -/
structure NestedIgnitionConfig where
  merge : List String
  replace : Option String
  deriving DecidableEq, Repr

/-- `ignition.EmptyIgnitionConfig`: the zero-valued nested
`Ignition.Config`. -/
def EmptyIgnitionConfig : NestedIgnitionConfig := ⟨[], none⟩

/-- An ignition config as consumed by the single-node merge: its nested
`Ignition.Config` section and its storage files. -/
structure IgnitionConfig where
  ignitionConfig : NestedIgnitionConfig
  files : List IgnitionFile
  deriving DecidableEq, Repr

/-- Modelled from the spec: `MergeIgnitionConfig` (the ignition utility,
whose implementation is not under src/, src/ holding only its caller
`updateSingleNodeIgnition`).  Per §4.3 the merge applies the second
(host) config as overrides onto the first: the result carries the host
config's files (host-specific file overrides win, base files that are
not overridden are kept) and the host config's nested `Ignition.Config`
section, which the caller uses the `EmptyIgnitionConfig` constant to
suppress. -/
def MergeIgnitionConfig (base override : IgnitionConfig) : IgnitionConfig :=
  { ignitionConfig := override.ignitionConfig
    files :=
      (base.files.filter
        (fun f => ¬ override.files.any (fun g => g.path = f.path)))
        ++ override.files }

/-- `installer.updateSingleNodeIgnition` (core, with the file download /
parse / write I/O abstracted away and dry-run off): replace the host
config's nested `Ignition.Config` by `EmptyIgnitionConfig`, then merge
the host config into the bootkube-produced single-node master ignition. -/
def updateSingleNodeIgnition (singleNodeconfig hostConfig : IgnitionConfig) :
    IgnitionConfig :=
  let hostConfig2 := { hostConfig with ignitionConfig := EmptyIgnitionConfig }
  MergeIgnitionConfig singleNodeconfig hostConfig2

/-! ## Bootstrap control-plane wait (`waitForMasterNodes`,
`updateReadyMasters`, `getInventoryHostsMap`) -/

/-- A cluster-API master node as consumed by `updateReadyMasters`: its
name, whether `common.IsK8sNodeIsReady` holds for it, and its IP
addresses (used for inventory matching). -/
structure NodeInfo where
  name : String
  ready : Bool
  ips : List String
  deriving DecidableEq, Repr

/-- `inventory_client.HostData` as consumed by the master wait: the host
id, its infra-env id, its current inventory stage and its inventory IP
addresses. -/
structure HostData where
  id : String
  infraEnvID : String
  currentStage : HostStage
  ips : List String
  deriving DecidableEq, Repr

/-- Number of hosts of an inventory map at stage `done`. -/
def countDoneHosts : List (String × HostData) → Nat
  | [] => 0
  | p :: rest =>
    (if p.2.currentStage = HostStage.done then 1 else 0) + countDoneHosts rest

/-- Modelled from the spec: `common.HostMatchByNameOrIPAddress` (package
`common`, not under src/) — "A node counts as ready when it is Ready=True
AND matches an inventory host by name or by any of its IP addresses"
(§4.1).  First try the node name as map key, then any host whose
addresses meet the node's addresses. -/
def HostMatchByNameOrIPAddress (node : NodeInfo)
    (invMap : List (String × HostData)) : Option HostData :=
  match invMap.find? (fun p => p.1 = node.name) with
  | some p => some p.2
  | none =>
    match invMap.find? (fun p => p.2.ips.any (fun ip => node.ips.contains ip)) with
    | some p => some p.2
    | none => none

/-- `installer.updateReadyMasters`: walk the cluster-API node list; every
Ready node not yet recorded is appended to `readyMasters` (a mutation
that persists even when the subsequent inventory match fails and the call
returns an error), then matched against the inventory map; on a match a
stage-`joined` progress update is sent for the matched host (its error
only logged).  Result: the new `readyMasters`, the progress updates sent,
and the returned error. -/
def updateReadyMasters :
    List NodeInfo → List String → List (String × HostData) →
      List ProgressUpdate → List String × List ProgressUpdate × Option String
  | [], readyMasters, _, updates => (readyMasters, updates, none)
  | node :: rest, readyMasters, invMap, updates =>
    if node.ready = true ∧ node.name ∉ readyMasters then
      let readyMasters2 := readyMasters ++ [node.name]
      match HostMatchByNameOrIPAddress node invMap with
      | none =>
        (readyMasters2, updates,
          some ("Node " ++ node.name ++ " is not in inventory hosts"))
      | some host =>
        updateReadyMasters rest readyMasters2 invMap
          (updates ++ [⟨host.infraEnvID, host.id, HostStage.joined, ""⟩])
    else updateReadyMasters rest readyMasters invMap updates

/-- Deletion of the current host from the fetched inventory map
(`getInventoryHostsMap` removes the first entry whose host id equals the
installer's host id). -/
def deleteSelfHost (selfID : String) :
    List (String × HostData) → List (String × HostData)
  | [] => []
  | p :: rest =>
    if p.2.id = selfID then rest else p :: deleteSelfHost selfID rest

/-- `installer.getInventoryHostsMap`: return the cached map when present;
otherwise fetch `GetEnabledHostsNamesHosts` (`fetch = none` models a
fetch error, propagated as `none`) and drop the current host from it. -/
def getInventoryHostsMap (selfID : String)
    (cache : Option (List (String × HostData)))
    (fetch : Option (List (String × HostData))) :
    Option (List (String × HostData)) :=
  match cache with
  | some m => some m
  | none =>
    match fetch with
    | none => none
    | some m => some (deleteSelfHost selfID m)

/-- One tick's observation of the external world inside
`waitForMasterNodes`: the result of `GetEnabledHostsNamesHosts` (used
only while the map is not yet cached; `none` = call error) and of
`kc.ListMasterNodes` (`none` = call error). -/
structure MasterWaitObs where
  hostsFetch : Option (List (String × HostData))
  nodesFetch : Option (List NodeInfo)
  deriving Repr

/-- `installer.waitForMasterNodes`: the unbounded polling loop around the
`sufficientMasterNodes` closure, fuel-indexed over a sequence of
observations.  Each tick: resolve the inventory hosts map (cached after
the first successful fetch), list the master nodes, run
`updateReadyMasters` (whose mutation of `readyMasters` persists across
ticks and across its own error returns), and stop once
`readyMasters.length ≥ min`.  Returns the tick at which the wait ended
together with the final `readyMasters`, or `none` when the fuel runs
out. -/
def waitForMasterNodesGo (selfID : String) (obs : Nat → MasterWaitObs)
    (min : Nat) :
    Nat → Nat → Option (List (String × HostData)) → List String →
      Option (Nat × List String)
  | 0, _, _, _ => none
  | fuel + 1, step, cache, readyMasters =>
    match getInventoryHostsMap selfID cache (obs step).hostsFetch with
    | none => waitForMasterNodesGo selfID obs min fuel (step + 1) none readyMasters
    | some m =>
      match (obs step).nodesFetch with
      | none =>
        waitForMasterNodesGo selfID obs min fuel (step + 1) (some m) readyMasters
      | some nodes =>
        match updateReadyMasters nodes readyMasters m [] with
        | (readyMasters2, _, some _) =>
          waitForMasterNodesGo selfID obs min fuel (step + 1) (some m)
            readyMasters2
        | (readyMasters2, _, none) =>
          if min ≤ readyMasters2.length then some (step, readyMasters2)
          else
            waitForMasterNodesGo selfID obs min fuel (step + 1) (some m)
              readyMasters2

/-- `name` was observed as a Ready master node at some tick `k ≤ n` of
the observation sequence. -/
def ReadyNodeObservedBy (obs : Nat → MasterWaitObs) (n : Nat)
    (name : String) : Prop :=
  ∃ k, k ≤ n ∧ ∃ nodes, (obs k).nodesFetch = some nodes ∧
    ∃ node, node ∈ nodes ∧ node.name = name ∧ node.ready = true

/-! ## Concrete scenarios used to evaluate the model -/

/-- A two-master inventory snapshot in which both masters are still at
stage `configuring` (none is `done`). -/
def twoMastersConfiguring : List (String × HostData) :=
  [("master-1", ⟨"id-1", "ie-1", HostStage.configuring, ["ip-1"]⟩),
   ("master-2", ⟨"id-2", "ie-1", HostStage.configuring, ["ip-2"]⟩)]

/-- An observation sequence for the bootstrap control-plane wait: the
inventory fetch always returns `twoMastersConfiguring` and the cluster
API always lists both masters as Ready nodes. -/
def twoReadyMastersObs : Nat → MasterWaitObs := fun _ =>
  ⟨some twoMastersConfiguring,
   some [⟨"master-1", true, ["ip-1"]⟩, ⟨"master-2", true, ["ip-2"]⟩]⟩

/-- An observation sequence for the worker wait: the cluster is an
add-hosts cluster. -/
def addHostsWorkerObs : Nat → WorkerObs := fun _ =>
  ⟨some ⟨some "AddHostsCluster"⟩, none⟩

/-! # Theorems -/

/-- C9: for every stage and info string, `UpdateHostInstallProgress`
makes no inventory call at all when the configured host id is the empty
string, and makes exactly one update call per invocation when the host id
is non-empty. -/
theorem updateHostInstallProgress_gated (infraEnvID : String)
    (stage : HostStage) (info : String) :
    UpdateHostInstallProgress infraEnvID "" stage info = [] ∧
    ∀ hostID : String, hostID ≠ "" →
      (UpdateHostInstallProgress infraEnvID hostID stage info).length = 1 := by
  constructor
  · simp [UpdateHostInstallProgress]
  · intro hostID h
    simp [UpdateHostInstallProgress, h]

/-- Witness for C9 at a concrete host id. -/
theorem updateHostInstallProgress_gated_witness :
    ("host-1" : String) ≠ "" ∧
    UpdateHostInstallProgress "ie-1" "" HostStage.installing "x" = [] ∧
    (UpdateHostInstallProgress "ie-1" "host-1" HostStage.installing "x").length
      = 1 :=
  ⟨by decide,
   (updateHostInstallProgress_gated "ie-1" HostStage.installing "x").1,
   (updateHostInstallProgress_gated "ie-1" HostStage.installing "x").2
     "host-1" (by decide)⟩

/-- C7: when `InstallNode` returns an error, the `RunInstaller` tail
reports stage `failed` to the inventory with that error's message and
returns the (non-nil) error; when `InstallNode` returns nil, no failed
stage is reported and nil is returned.  (The report reaches the inventory
because the configured host id is non-empty.) -/
theorem runInstaller_failure_reporting (infraEnvID hostID : String)
    (hne : hostID ≠ "") :
    (∀ e : String, RunInstallerTail infraEnvID hostID (some e) =
      ([⟨infraEnvID, hostID, HostStage.failed, e⟩], some e)) ∧
    RunInstallerTail infraEnvID hostID none = ([], none) := by
  constructor
  · intro e
    simp [RunInstallerTail, UpdateHostInstallProgress, hne]
  · rfl

/-- Witness for C7 at a concrete host id and error. -/
theorem runInstaller_failure_reporting_witness :
    ("host-1" : String) ≠ "" ∧
    RunInstallerTail "ie-1" "host-1" (some "boom") =
      ([⟨"ie-1", "host-1", HostStage.failed, "boom"⟩], some "boom") ∧
    RunInstallerTail "ie-1" "host-1" none = ([], none) :=
  ⟨by decide,
   (runInstaller_failure_reporting "ie-1" "host-1" (by decide)).1 "boom",
   (runInstaller_failure_reporting "ie-1" "host-1" (by decide)).2⟩

/-- C8: in single-node mode the merged ignition has an emptied nested
`Ignition.Config` (the host config's nested section was replaced by
`EmptyIgnitionConfig` before the merge) while keeping every
host-specific file override. -/
theorem singleNodeIgnition_merge (singleNodeconfig hostConfig : IgnitionConfig) :
    (updateSingleNodeIgnition singleNodeconfig hostConfig).ignitionConfig =
      EmptyIgnitionConfig ∧
    ∀ f ∈ hostConfig.files,
      f ∈ (updateSingleNodeIgnition singleNodeconfig hostConfig).files := by
  constructor
  · rfl
  · intro f hf
    simp only [updateSingleNodeIgnition, MergeIgnitionConfig, List.mem_append]
    exact Or.inr hf

/-- Witness for C8 on a concrete pair of ignition configs. -/
theorem singleNodeIgnition_merge_witness :
    (⟨"/etc/hostname", "node-0"⟩ : IgnitionFile) ∈
      [(⟨"/etc/hostname", "node-0"⟩ : IgnitionFile)] ∧
    (updateSingleNodeIgnition
        ⟨⟨["base-ref"], some "base-replace"⟩, [⟨"/a", "1"⟩]⟩
        ⟨⟨["host-ref"], some "host-replace"⟩,
          [⟨"/etc/hostname", "node-0"⟩]⟩).ignitionConfig =
      EmptyIgnitionConfig ∧
    (⟨"/etc/hostname", "node-0"⟩ : IgnitionFile) ∈
      (updateSingleNodeIgnition
        ⟨⟨["base-ref"], some "base-replace"⟩, [⟨"/a", "1"⟩]⟩
        ⟨⟨["host-ref"], some "host-replace"⟩,
          [⟨"/etc/hostname", "node-0"⟩]⟩).files :=
  ⟨by simp,
   (singleNodeIgnition_merge
      ⟨⟨["base-ref"], some "base-replace"⟩, [⟨"/a", "1"⟩]⟩
      ⟨⟨["host-ref"], some "host-replace"⟩, [⟨"/etc/hostname", "node-0"⟩]⟩).1,
   (singleNodeIgnition_merge
      ⟨⟨["base-ref"], some "base-replace"⟩, [⟨"/a", "1"⟩]⟩
      ⟨⟨["host-ref"], some "host-replace"⟩, [⟨"/etc/hostname", "node-0"⟩]⟩).2
     ⟨"/etc/hostname", "node-0"⟩ (by simp)⟩

/-- C2 counterexample: on the condition list
`[Available=True, Degraded=True]` the code derives status `available`
although a `Degraded=True` condition is present, contradicting the claim
that `available` is derived only when the list contains no `Degraded=True`
condition. -/
theorem clusterOperatorStatus_counterexample :
    (ClusterOperatorConditionsToMonitoredOperatorStatus
        [⟨"Available", "True", "a"⟩, ⟨"Degraded", "True", "d"⟩]).1 =
      OperatorStatus.available ∧
    ∃ c ∈ ([⟨"Available", "True", "a"⟩, ⟨"Degraded", "True", "d"⟩] :
        List ClusterOperatorStatusCondition),
      c.type = "Degraded" ∧ c.status = "True" := by
  constructor
  · rfl
  · exact ⟨⟨"Degraded", "True", "d"⟩, by simp, rfl, rfl⟩

/-- C2 (amended): the derived status is `available` exactly when the
first condition whose type is one of `Available`/`Progressing`/`Degraded`
with status `True` has type `Available` (later conditions are not
consulted); for an OLM operator the derived status is `available` exactly
when the CSV phase is `Succeeded`. -/
theorem clusterOperatorStatus_amended :
    (∀ conditions : List ClusterOperatorStatusCondition,
      ((ClusterOperatorConditionsToMonitoredOperatorStatus conditions).1 =
          OperatorStatus.available ↔
        ∃ c, conditions.find? isTriggerCondition = some c ∧
          c.type = "Available")) ∧
    ∀ csvStatus : String,
      (CsvStatusToOperatorStatus csvStatus = OperatorStatus.available ↔
        csvStatus = "Succeeded") := by
  constructor
  · intro conditions
    induction conditions with
    | nil =>
      simp [ClusterOperatorConditionsToMonitoredOperatorStatus, List.find?]
    | cons c rest ih =>
      by_cases h1 : c.type = "Available" ∧ c.status = "True"
      · have ht : isTriggerCondition c = true := by
          simp [isTriggerCondition, h1.1, h1.2]
        simp [ClusterOperatorConditionsToMonitoredOperatorStatus, h1,
          List.find?, ht, h1.1]
      · by_cases h2 : c.type = "Progressing" ∧ c.status = "True"
        · have ht : isTriggerCondition c = true := by
            simp [isTriggerCondition, h2.1, h2.2]
          have hne : c.type ≠ "Available" := by
            rw [h2.1]; decide
          simp [ClusterOperatorConditionsToMonitoredOperatorStatus, h1, h2,
            List.find?, ht, hne]
        · by_cases h3 : c.type = "Degraded" ∧ c.status = "True"
          · have ht : isTriggerCondition c = true := by
              simp [isTriggerCondition, h3.1, h3.2]
            have hne : c.type ≠ "Available" := by
              rw [h3.1]; decide
            simp [ClusterOperatorConditionsToMonitoredOperatorStatus, h1, h2,
              h3, List.find?, ht, hne]
          · have ht : isTriggerCondition c = false := by
              simp only [isTriggerCondition, decide_eq_false_iff_not]
              intro hc
              rcases hc.1 with h | h | h
              · exact h1 ⟨h, hc.2⟩
              · exact h2 ⟨h, hc.2⟩
              · exact h3 ⟨h, hc.2⟩
            simp [ClusterOperatorConditionsToMonitoredOperatorStatus, h1, h2,
              h3, List.find?, ht, ih]
  · intro csvStatus
    constructor
    · intro h
      by_contra hne
      by_cases hf : csvStatus = "Failed" <;>
        simp [CsvStatusToOperatorStatus, hne, hf] at h
    · intro h
      simp [CsvStatusToOperatorStatus, h]

/-- Unfolding `retryAux` when the attempt at index `i` succeeds: the
loop stops with no further call and no sleep. -/
theorem retryAux_none (sleep : Nat) (f : Nat → Option String) (n i : Nat)
    (h : f i = none) : retryAux sleep f n i = (none, i + 1, []) := by
  cases n <;> simp [retryAux, h]

/-- Unfolding `retryAux` when a non-final attempt fails: one sleep, then
the loop continues at the next call index. -/
theorem retryAux_succ (sleep : Nat) (f : Nat → Option String) (n i : Nat)
    (e : String) (h : f i = some e) :
    retryAux sleep f (n + 1) i =
      ((retryAux sleep f n (i + 1)).1, (retryAux sleep f n (i + 1)).2.1,
        sleep :: (retryAux sleep f n (i + 1)).2.2) := by
  simp [retryAux, h]

/-- Unfolding `retryAux` when the final attempt fails. -/
theorem retryAux_zero (sleep : Nat) (f : Nat → Option String) (i : Nat)
    (e : String) (h : f i = some e) :
    retryAux sleep f 0 i = (some e, i + 1, []) := by
  simp [retryAux, h]

/-- `retryAux` always makes at least one call. -/
theorem retryAux_calls_lb (sleep : Nat) (f : Nat → Option String)
    (n i : Nat) : i + 1 ≤ (retryAux sleep f n i).2.1 := by
  induction n generalizing i with
  | zero => cases hf : f i <;> simp [retryAux, hf]
  | succ n ih =>
    cases hf : f i with
    | none => simp [retryAux, hf]
    | some e =>
      simp only [retryAux, hf]
      have := ih (i + 1)
      omega

/-- `retryAux` makes at most `n + 1` calls. -/
theorem retryAux_calls_ub (sleep : Nat) (f : Nat → Option String)
    (n i : Nat) : (retryAux sleep f n i).2.1 ≤ i + n + 1 := by
  induction n generalizing i with
  | zero => cases hf : f i <;> simp [retryAux, hf]
  | succ n ih =>
    cases hf : f i with
    | none =>
      simp [retryAux, hf]
      try omega
    | some e =>
      simp only [retryAux, hf]
      have := ih (i + 1)
      omega

/-- Every gap `retryAux` sleeps has the configured duration. -/
theorem retryAux_sleeps (sleep : Nat) (f : Nat → Option String)
    (n i : Nat) : ∀ d ∈ (retryAux sleep f n i).2.2, d = sleep := by
  induction n generalizing i with
  | zero => cases hf : f i <;> simp [retryAux, hf]
  | succ n ih =>
    cases hf : f i with
    | none => simp [retryAux, hf]
    | some e =>
      simp only [retryAux, hf]
      intro d hd
      rcases List.mem_cons.mp hd with h | h
      · exact h
      · exact ih (i + 1) d h

/-- When the first `j` attempts fail and attempt `j` (relative to the
start index `i`) succeeds within the loop budget, `retryAux` returns nil
after exactly `j + 1` calls and `j` sleeps. -/
theorem retryAux_first_success (sleep : Nat) (f : Nat → Option String)
    (n i j : Nat) (hj : j ≤ n) (hfail : ∀ k, k < j → f (i + k) ≠ none)
    (hsucc : f (i + j) = none) :
    retryAux sleep f n i = (none, i + j + 1, List.replicate j sleep) := by
  induction j generalizing n i with
  | zero => simpa using retryAux_none sleep f n i (by simpa using hsucc)
  | succ j ihj =>
    obtain ⟨m, rfl⟩ : ∃ m, n = m + 1 := ⟨n - 1, by omega⟩
    have h0 : f i ≠ none := by
      have := hfail 0 (by omega)
      simpa using this
    obtain ⟨e, he⟩ := Option.ne_none_iff_exists'.mp h0
    rw [retryAux_succ sleep f m i e he]
    have hrec := ihj m (i + 1) (by omega)
      (fun k hk => by
        have h2 : i + 1 + k = i + (k + 1) := by omega
        rw [h2]
        exact hfail (k + 1) (by omega))
      (by
        have h2 : i + 1 + j = i + (j + 1) := by omega
        rw [h2]
        exact hsucc)
    rw [hrec]
    simp [List.replicate_succ]
    try omega

/-- When every attempt in the budget fails, `retryAux` makes all `n + 1`
calls, sleeps `n` gaps, and returns the final attempt's error. -/
theorem retryAux_all_fail (sleep : Nat) (f : Nat → Option String)
    (n i : Nat) (e : String) (hfail : ∀ k, k < n → f (i + k) ≠ none)
    (hlast : f (i + n) = some e) :
    retryAux sleep f n i = (some e, i + n + 1, List.replicate n sleep) := by
  induction n generalizing i with
  | zero => simpa using retryAux_zero sleep f i e (by simpa using hlast)
  | succ n ih =>
    have h0 : f i ≠ none := by
      have := hfail 0 (by omega)
      simpa using this
    obtain ⟨e0, he0⟩ := Option.ne_none_iff_exists'.mp h0
    rw [retryAux_succ sleep f n i e0 he0]
    have hrec := ih (i + 1)
      (fun k hk => by
        have h2 : i + 1 + k = i + (k + 1) := by omega
        rw [h2]
        exact hfail (k + 1) (by omega))
      (by
        have h2 : i + 1 + n = i + (n + 1) := by omega
        rw [h2]
        exact hlast)
    rw [hrec]
    simp [List.replicate_succ]
    try omega

/-- C10: `utils.Retry` invokes its function at least once for every
`attempts` value (including zero and negative ones, where the loop body
runs zero times but the final attempt still runs); it stops and returns
nil at the first invocation that returns nil; and when every attempt in
the budget fails it returns the wrapped error after the final attempt. -/
theorem retry_spec (attempts : Int) (sleep : Nat) (f : Nat → Option String) :
    1 ≤ (Retry attempts sleep f).2.1 ∧
    (∀ j, j < retryMaxCalls attempts → (∀ k, k < j → f k ≠ none) →
      f j = none →
      Retry attempts sleep f = (none, j + 1, List.replicate j sleep)) ∧
    (∀ e, (∀ k, k < retryMaxCalls attempts - 1 → f k ≠ none) →
      f (retryMaxCalls attempts - 1) = some e →
      Retry attempts sleep f =
        (some (retryWrapMsg attempts e), retryMaxCalls attempts,
          List.replicate (retryMaxCalls attempts - 1) sleep)) := by
  refine ⟨?_, ?_, ?_⟩
  · have := retryAux_calls_lb sleep f ((attempts - 1).toNat) 0
    have h1 : (Retry attempts sleep f).2.1 =
        (retryAux sleep f ((attempts - 1).toNat) 0).2.1 := rfl
    omega
  · intro j hj hfail hsucc
    have hj2 : j ≤ (attempts - 1).toNat := by
      have : retryMaxCalls attempts = (attempts - 1).toNat + 1 := rfl
      omega
    have hr := retryAux_first_success sleep f ((attempts - 1).toNat) 0 j hj2
      (fun k hk => by simpa using hfail k hk) (by simpa using hsucc)
    have hretry : Retry attempts sleep f =
        ((retryAux sleep f ((attempts - 1).toNat) 0).1.map
            (retryWrapMsg attempts),
          (retryAux sleep f ((attempts - 1).toNat) 0).2.1,
          (retryAux sleep f ((attempts - 1).toNat) 0).2.2) := rfl
    rw [hretry, hr]
    simp
  · intro e hfail hlast
    have hm : retryMaxCalls attempts - 1 = (attempts - 1).toNat := rfl
    rw [hm] at hfail hlast
    have hr := retryAux_all_fail sleep f ((attempts - 1).toNat) 0 e
      (fun k hk => by simpa using hfail k hk) (by simpa using hlast)
    have hretry : Retry attempts sleep f =
        ((retryAux sleep f ((attempts - 1).toNat) 0).1.map
            (retryWrapMsg attempts),
          (retryAux sleep f ((attempts - 1).toNat) 0).2.1,
          (retryAux sleep f ((attempts - 1).toNat) 0).2.2) := rfl
    have hm2 : retryMaxCalls attempts = (attempts - 1).toNat + 1 := rfl
    rw [hretry, hr, hm2]
    simp

/-- Witness for C10 at `attempts = 0` (loop body runs zero times, the
single final attempt succeeds immediately). -/
theorem retry_spec_witness :
    (0 : Nat) < retryMaxCalls 0 ∧
    ((fun _ => (none : Option String)) 0 = none) ∧
    Retry 0 5 (fun _ => none) = (none, 1, List.replicate 0 5) :=
  ⟨by decide, rfl,
   (retry_spec 0 5 (fun _ => none)).2.1 0 (by decide)
     (fun k hk => (Nat.not_lt_zero k hk).elim) rfl⟩

/-- C6: `writeImageToDisk` invokes the image-write operation at most 3
times with a 1-second gap between attempts, returns nil as soon as one
attempt succeeds (after exactly the failed attempts before it), and
returns an error only after all 3 attempts have failed. -/
theorem writeImageToDisk_spec (f : Nat → Option String) :
    (writeImageToDisk f).2.1 ≤ 3 ∧
    (∀ d ∈ (writeImageToDisk f).2.2, d = 1) ∧
    (∀ j, j < 3 → (∀ k, k < j → f k ≠ none) → f j = none →
      writeImageToDisk f = (none, j + 1, List.replicate j 1)) ∧
    ((∀ k, k < 3 → f k ≠ none) →
      ∃ e, f 2 = some e ∧
        writeImageToDisk f =
          (some (retryWrapMsg 3 e), 3, List.replicate 2 1)) := by
  refine ⟨?_, ?_, ?_, ?_⟩
  · have := retryAux_calls_ub 1 f 2 0
    have h1 : (writeImageToDisk f).2.1 = (retryAux 1 f 2 0).2.1 := rfl
    omega
  · intro d hd
    exact retryAux_sleeps 1 f 2 0 d hd
  · intro j hj hfail hsucc
    have hr := retryAux_first_success 1 f 2 0 j (by omega)
      (fun k hk => by simpa using hfail k hk) (by simpa using hsucc)
    show Retry 3 1 f = _
    simp [Retry, hr]
  · intro hfail
    obtain ⟨e, he⟩ := Option.ne_none_iff_exists'.mp (hfail 2 (by omega))
    refine ⟨e, he, ?_⟩
    have hr := retryAux_all_fail 1 f 2 0 e
      (fun k hk => by simpa using hfail k (by omega)) (by simpa using he)
    show Retry 3 1 f = _
    simp [Retry, hr]

/-- Witness for C6: the first write attempt fails, the second succeeds;
one 1-second gap, nil returned after 2 calls. -/
theorem writeImageToDisk_spec_witness :
    ((fun k => if k = 0 then some "werr" else none) 1 = (none : Option String)) ∧
    writeImageToDisk (fun k => if k = 0 then some "werr" else none) =
      (none, 2, List.replicate 1 1) :=
  ⟨rfl,
   (writeImageToDisk_spec (fun k => if k = 0 then some "werr" else none)).2.2.1
     1 (by omega)
     (fun k hk => by
       have hk0 : k = 0 := by omega
       subst hk0
       simp)
     rfl⟩

/-- C4: when the k8s queries answer (`GetNetworkType` returns `nt`,
`GetControlPlaneReplicas` returns `r`), the control-plane replicas patch
call is made if and only if the OpenShift version is less than 4.7, the
network type is `OVNKubernetes` and the replica count equals 3; and the
single-node (HA mode `"None"`) install never enters the control-plane
wait that could apply it. -/
theorem controlPlanePatch_condition (v : List Nat) (nt : String) (r : Int)
    (patchErr unpatchErr : Option String) (masterWaitReturns : Bool) :
    (ReplicasAction.patch ∈
        (waitForMinMasterNodes (some v)
          ⟨some nt, some r, patchErr, unpatchErr⟩ masterWaitReturns).2 ↔
      (IsVersionLessThan47 v = true ∧ nt = ovnKubernetes ∧
        r = numMasterNodes)) ∧
    ∀ role : String, installNodeEntersControlPlaneWait role "None" = false := by
  constructor
  · by_cases hv : IsVersionLessThan47 v = true
    · by_cases hnt : nt = ovnKubernetes
      · by_cases hr : r = numMasterNodes
        · cases patchErr with
          | none =>
            cases masterWaitReturns with
            | false =>
              simp [waitForMinMasterNodes,
                shouldControlPlaneReplicasPatchApplied, hv, hnt, hr]
            | true =>
              cases unpatchErr with
              | none =>
                simp [waitForMinMasterNodes,
                  shouldControlPlaneReplicasPatchApplied, hv, hnt, hr]
              | some e =>
                simp [waitForMinMasterNodes,
                  shouldControlPlaneReplicasPatchApplied, hv, hnt, hr]
          | some e =>
            simp [waitForMinMasterNodes,
              shouldControlPlaneReplicasPatchApplied, hv, hnt, hr]
        · cases masterWaitReturns <;>
            simp [waitForMinMasterNodes,
              shouldControlPlaneReplicasPatchApplied, hv, hnt, hr]
      · cases masterWaitReturns <;>
          simp [waitForMinMasterNodes,
            shouldControlPlaneReplicasPatchApplied, hv, hnt]
    · cases masterWaitReturns <;>
        simp [waitForMinMasterNodes,
          shouldControlPlaneReplicasPatchApplied, hv]
  · intro role
    simp [installNodeEntersControlPlaneWait]

/-- C5: on every error-free return of `waitForMinMasterNodes`, if the
patch call was made then the un-patch call was also made, and folding the
performed actions over the initial replica count 3 leaves it at 3 (the
control-plane replica count is unchanged across a successful run). -/
theorem controlPlanePatch_reverted (version : Option (List Nat))
    (kc : K8sView) (masterWaitReturns : Bool)
    (h : (waitForMinMasterNodes version kc masterWaitReturns).1 =
      some (Except.ok ())) :
    (ReplicasAction.patch ∈
        (waitForMinMasterNodes version kc masterWaitReturns).2 →
      ReplicasAction.unpatch ∈
        (waitForMinMasterNodes version kc masterWaitReturns).2) ∧
    (waitForMinMasterNodes version kc masterWaitReturns).2.foldl
        applyReplicasAction numMasterNodes = numMasterNodes := by
  rcases hs : shouldControlPlaneReplicasPatchApplied version kc with _ | r
  · simp [waitForMinMasterNodes, hs] at h
  · rcases r with e | b
    · simp [waitForMinMasterNodes, hs] at h
    · cases b with
      | false =>
        cases masterWaitReturns with
        | false => simp [waitForMinMasterNodes, hs] at h
        | true =>
          constructor
          · intro hp
            simp [waitForMinMasterNodes, hs] at hp
          · simp [waitForMinMasterNodes, hs, numMasterNodes]
      | true =>
        rcases hp : kc.patchErr with _ | e
        · cases masterWaitReturns with
          | false => simp [waitForMinMasterNodes, hs, hp] at h
          | true =>
            rcases hu : kc.unpatchErr with _ | e2
            · constructor
              · intro _
                simp [waitForMinMasterNodes, hs, hp, hu]
              · simp [waitForMinMasterNodes, hs, hp, hu, applyReplicasAction,
                  numMasterNodes]
            · simp [waitForMinMasterNodes, hs, hp, hu] at h
        · simp [waitForMinMasterNodes, hs, hp] at h

/-- Witness for C5: OCP 4.6, OVNKubernetes, 3 replicas, both patch calls
succeed, the master wait returns. -/
theorem controlPlanePatch_reverted_witness :
    (waitForMinMasterNodes (some [4, 6])
        ⟨some "OVNKubernetes", some 3, none, none⟩ true).1 =
      some (Except.ok ()) ∧
    ((ReplicasAction.patch ∈
        (waitForMinMasterNodes (some [4, 6])
          ⟨some "OVNKubernetes", some 3, none, none⟩ true).2 →
      ReplicasAction.unpatch ∈
        (waitForMinMasterNodes (some [4, 6])
          ⟨some "OVNKubernetes", some 3, none, none⟩ true).2) ∧
    (waitForMinMasterNodes (some [4, 6])
        ⟨some "OVNKubernetes", some 3, none, none⟩ true).2.foldl
        applyReplicasAction numMasterNodes = numMasterNodes) :=
  ⟨by decide,
   controlPlanePatch_reverted (some [4, 6])
     ⟨some "OVNKubernetes", some 3, none, none⟩ true (by decide)⟩

/-- C3: whenever the worker wait-for-2-masters loop returns (allowing
progression to the rebooting stage), either the cluster kind it fetched
is add-hosts or the inventory's master-role host list at the returning
tick has at least 2 hosts at stage `done`. -/
theorem workerWait_condition (obs : Nat → WorkerObs) (fuel step0 : Nat)
    (cached0 : Option Cluster) (n : Nat) (c : Cluster)
    (h : workerWaitFor2ReadyMasters obs fuel step0 cached0 = some (n, c)) :
    stringValue c.kind = ClusterKindAddHostsCluster ∨
    ∃ hosts, (obs n).listMastersHosts = some hosts ∧
      minMasterNodes ≤ numDone hosts := by
  induction fuel generalizing step0 cached0 with
  | zero => simp [workerWaitFor2ReadyMasters] at h
  | succ fuel ih =>
    rw [workerWaitFor2ReadyMasters] at h
    split at h
    · exact ih _ _ h
    · rename_i c0 hc0
      split at h
      · rename_i hk
        simp only [Option.some.injEq, Prod.mk.injEq] at h
        obtain ⟨h1, h2⟩ := h
        subst h2
        exact Or.inl hk
      · rename_i hk
        split at h
        · exact ih _ _ h
        · rename_i hosts hl
          split at h
          · rename_i hn
            simp only [Option.some.injEq, Prod.mk.injEq] at h
            obtain ⟨h1, h2⟩ := h
            subst h1
            exact Or.inr ⟨hosts, hl, hn⟩
          · exact ih _ _ h

/-- Every name in the `readyMasters` list produced by
`updateReadyMasters` either was already recorded or belongs to a Ready
node of the node list just observed. -/
theorem updateReadyMasters_mem (nodes : List NodeInfo) (rm : List String)
    (invMap : List (String × HostData)) (ups : List ProgressUpdate) :
    ∀ name ∈ (updateReadyMasters nodes rm invMap ups).1,
      name ∈ rm ∨ ∃ node ∈ nodes, node.name = name ∧ node.ready = true := by
  induction nodes generalizing rm ups with
  | nil =>
    intro name h
    exact Or.inl h
  | cons node rest ih =>
    intro name h
    simp only [updateReadyMasters] at h
    split at h
    · rename_i hg
      split at h
      · rcases List.mem_append.mp h with h | h
        · exact Or.inl h
        · exact Or.inr ⟨node, List.mem_cons_self _ _,
            (List.mem_singleton.mp h).symm, hg.1⟩
      · rcases ih _ _ name h with hmem | ⟨nd, hnd, hname, hready⟩
        · rcases List.mem_append.mp hmem with h2 | h2
          · exact Or.inl h2
          · exact Or.inr ⟨node, List.mem_cons_self _ _,
              (List.mem_singleton.mp h2).symm, hg.1⟩
        · exact Or.inr ⟨nd, List.mem_cons_of_mem _ hnd, hname, hready⟩
    · rcases ih _ _ name h with hmem | ⟨nd, hnd, hname, hready⟩
      · exact Or.inl hmem
      · exact Or.inr ⟨nd, List.mem_cons_of_mem _ hnd, hname, hready⟩

/-- `updateReadyMasters` keeps `readyMasters` duplicate-free: a node name
is appended only when it is not yet recorded. -/
theorem updateReadyMasters_nodup (nodes : List NodeInfo) (rm : List String)
    (invMap : List (String × HostData)) (ups : List ProgressUpdate)
    (h : rm.Nodup) : (updateReadyMasters nodes rm invMap ups).1.Nodup := by
  induction nodes generalizing rm ups with
  | nil => exact h
  | cons node rest ih =>
    simp only [updateReadyMasters]
    split
    · rename_i hg
      have h2 : (rm ++ [node.name]).Nodup := by
        simp [List.nodup_append, h, hg.2]
      split
      · exact h2
      · exact ih _ _ h2
    · exact ih _ _ h

/-- Loop invariant of the bootstrap master wait: when the loop returns at
tick `n`, it has recorded at least `min` names, they are pairwise
distinct, and every recorded name was observed as a Ready master node at
some tick up to `n` (provided the names recorded before entry were). -/
theorem waitForMasterNodesGo_inv (selfID : String) (obs : Nat → MasterWaitObs)
    (min : Nat) :
    ∀ fuel step cache rm0 n rm,
      waitForMasterNodesGo selfID obs min fuel step cache rm0 = some (n, rm) →
      rm0.Nodup →
      (∀ name ∈ rm0, ∃ k, k < step ∧ ∃ nodes,
        (obs k).nodesFetch = some nodes ∧
          ∃ node, node ∈ nodes ∧ node.name = name ∧ node.ready = true) →
      step ≤ n ∧ min ≤ rm.length ∧ rm.Nodup ∧
        ∀ name ∈ rm, ReadyNodeObservedBy obs n name := by
  intro fuel
  induction fuel with
  | zero =>
    intro step cache rm0 n rm h
    simp [waitForMasterNodesGo] at h
  | succ fuel ih =>
    intro step cache rm0 n rm h hnd hinv
    rw [waitForMasterNodesGo] at h
    split at h
    · have := ih _ _ _ _ _ h hnd
        (fun name hname => by
          obtain ⟨k, hk, rest⟩ := hinv name hname
          exact ⟨k, by omega, rest⟩)
      exact ⟨by omega, this.2⟩
    · rename_i m hm
      split at h
      · have := ih _ _ _ _ _ h hnd
          (fun name hname => by
            obtain ⟨k, hk, rest⟩ := hinv name hname
            exact ⟨k, by omega, rest⟩)
        exact ⟨by omega, this.2⟩
      · rename_i nodes hnodes
        split at h
        · rename_i rm2 ups err hurm
          have hnd2 : rm2.Nodup := by
            have := updateReadyMasters_nodup nodes rm0 m [] hnd
            rw [hurm] at this
            exact this
          have hinv2 : ∀ name ∈ rm2, ∃ k, k < step + 1 ∧ ∃ nodes',
              (obs k).nodesFetch = some nodes' ∧
                ∃ node, node ∈ nodes' ∧ node.name = name ∧
                  node.ready = true := by
            intro name hn
            have hmem := updateReadyMasters_mem nodes rm0 m [] name
              (by rw [hurm]; exact hn)
            rcases hmem with hold | ⟨node, hnode, hname, hready⟩
            · obtain ⟨k, hk, rest⟩ := hinv name hold
              exact ⟨k, by omega, rest⟩
            · exact ⟨step, by omega, nodes, hnodes, node, hnode, hname, hready⟩
          have := ih _ _ _ _ _ h hnd2 hinv2
          exact ⟨by omega, this.2⟩
        · rename_i rm2 ups hurm
          have hnd2 : rm2.Nodup := by
            have := updateReadyMasters_nodup nodes rm0 m [] hnd
            rw [hurm] at this
            exact this
          have hinv2 : ∀ name ∈ rm2, ∃ k, k < step + 1 ∧ ∃ nodes',
              (obs k).nodesFetch = some nodes' ∧
                ∃ node, node ∈ nodes' ∧ node.name = name ∧
                  node.ready = true := by
            intro name hn
            have hmem := updateReadyMasters_mem nodes rm0 m [] name
              (by rw [hurm]; exact hn)
            rcases hmem with hold | ⟨node, hnode, hname, hready⟩
            · obtain ⟨k, hk, rest⟩ := hinv name hold
              exact ⟨k, by omega, rest⟩
            · exact ⟨step, by omega, nodes, hnodes, node, hnode, hname, hready⟩
          split at h
          · rename_i hlen
            simp only [Option.some.injEq, Prod.mk.injEq] at h
            obtain ⟨h1, h2⟩ := h
            subst h1
            subst h2
            refine ⟨le_refl _, hlen, hnd2, ?_⟩
            intro name hn
            obtain ⟨k, hk, rest⟩ := hinv2 name hn
            exact ⟨k, by omega, rest⟩
          · have := ih _ _ _ _ _ h hnd2 hinv2
            exact ⟨by omega, this.2⟩

/-- C1 counterexample: a bootstrap control-plane wait that returns at
tick 0 because both other masters' nodes are Ready, while the inventory
still records zero master hosts at stage `done` — the code waits for
cluster-API node readiness, not for inventory stage `done`. -/
theorem waitForMasterNodes_done_counterexample :
    waitForMasterNodesGo "self-id" twoReadyMastersObs minMasterNodes 1 0
        none [] = some (0, ["master-1", "master-2"]) ∧
    countDoneHosts twoMastersConfiguring = 0 := by
  constructor
  · rfl
  · rfl

/-- C1 (amended): whenever the bootstrap control-plane wait returns
(allowing the run to proceed towards the rebooting stage), it has
recorded at least `min` (= 2 in the caller) pairwise-distinct master node
names, each of which was reported Ready by the cluster API at some tick
up to the returning one. -/
theorem waitForMasterNodes_ready (selfID : String) (obs : Nat → MasterWaitObs)
    (min fuel n : Nat) (readyMasters : List String)
    (h : waitForMasterNodesGo selfID obs min fuel 0 none [] =
      some (n, readyMasters)) :
    min ≤ readyMasters.length ∧ readyMasters.Nodup ∧
      ∀ name ∈ readyMasters, ReadyNodeObservedBy obs n name := by
  have := waitForMasterNodesGo_inv selfID obs min fuel 0 none [] n
    readyMasters h List.nodup_nil (by simp)
  exact this.2

/-- Witness for C1's amended theorem on the concrete two-ready-masters
run. -/
theorem waitForMasterNodes_ready_witness :
    waitForMasterNodesGo "self-id" twoReadyMastersObs minMasterNodes 1 0
        none [] = some (0, ["master-1", "master-2"]) ∧
    (minMasterNodes ≤ (["master-1", "master-2"] : List String).length ∧
      (["master-1", "master-2"] : List String).Nodup ∧
      ∀ name ∈ (["master-1", "master-2"] : List String),
        ReadyNodeObservedBy twoReadyMastersObs 0 name) :=
  ⟨rfl,
   waitForMasterNodes_ready "self-id" twoReadyMastersObs minMasterNodes 1 0
     ["master-1", "master-2"] rfl⟩

/-- Witness for C3: a worker joining an add-hosts cluster; the wait
returns at tick 0 with that cluster. -/
theorem workerWait_condition_witness :
    workerWaitFor2ReadyMasters addHostsWorkerObs 1 0 none =
      some (0, ⟨some "AddHostsCluster"⟩) ∧
    (stringValue (Cluster.mk (some "AddHostsCluster")).kind =
        ClusterKindAddHostsCluster ∨
      ∃ hosts, (addHostsWorkerObs 0).listMastersHosts = some hosts ∧
        minMasterNodes ≤ numDone hosts) :=
  ⟨by decide,
   workerWait_condition addHostsWorkerObs 1 0 none 0
     ⟨some "AddHostsCluster"⟩ (by decide)⟩

end AssistedInstaller
